import Mathlib

/-!
Shallow embedding of the economist_poll_aggregator repository
(src/poll_agg.py and src/utils.py) and proofs about the claims of its
natural-language specification.

Modelling conventions:
* dates are `Int` (day numbers; the Python code only ever works with
  midnight datetimes and whole-day timedeltas);
* percentage values are `ℚ`; a pandas `NaN` cell is `Option.none`;
* a pandas DataFrame with a `date` column plus candidate columns is `Df`
  (the `pollster`/`n` columns are dropped by the code before any
  aggregation, so the aggregation model carries only date + candidates);
* Python exceptions are `Except.error` with a short message string;
* the unbounded `while` loop of `aggregate_with_lead_time` is modelled
  with explicit fuel: the outcome `none` means the loop did not finish
  within the given fuel (and, when provable for every fuel, that the
  Python loop diverges).
-/

namespace PollAgg

/-- One value cell of a candidate column: `none` is pandas NaN. -/
abbrev Value := Option ℚ

/-- One row of a polls dataframe after the base columns `pollster`/`n`
are dropped: a date plus one value per candidate column. -/
structure Row where
  date : Int
  vals : List Value
deriving Repr, DecidableEq

/-- A dataframe: named candidate columns and rows. `rows.vals` is
positional, indexed like `cols`. -/
structure Df where
  cols : List String
  rows : List Row
deriving Repr, DecidableEq

/-- One output row of a trends dataframe: a date plus one aggregated
value per column, keyed by column name. -/
structure TrendPoint where
  date : Int
  entries : List (String × Value)
deriving Repr, DecidableEq

/-- The `agg_type` argument: `'mean'` or `'median'` (the string enum is
validated up front by `aggregate_polls`, so it is an inductive here). -/
inductive AggType where
  | mean
  | median
deriving Repr, DecidableEq

/-- The `interpolation` argument of `aggregate_polls`. -/
inductive Interp where
  | if_missing
  | always
  | never
deriving Repr, DecidableEq

/-- The `candidates` argument: the literal string `'all'` or an explicit
list of column names. -/
inductive Selector where
  | all
  | names (l : List String)
deriving Repr, DecidableEq

/-- Values of a column that are present (pandas drops NaN before
computing a mean or median: `skipna` default). -/
def presentVals (l : List Value) : List ℚ :=
  l.filterMap id

/-- Mean of a list of rationals (pandas `Series.mean` over the non-NaN
entries). -/
def meanQ (l : List ℚ) : ℚ :=
  l.sum / (l.length : ℚ)

/-- Insertion into a sorted list of rationals, for the median. -/
def insertQ (q : ℚ) : List ℚ → List ℚ
  | [] => [q]
  | x :: xs => if q ≤ x then q :: x :: xs else x :: insertQ q xs

/-- Insertion sort of rationals. -/
def sortQ (l : List ℚ) : List ℚ :=
  l.foldr insertQ []

/-- Median as pandas computes it: middle element for odd length, average
of the two middle elements for even length. -/
def medianQ (l : List ℚ) : ℚ :=
  let s := sortQ l
  let n := s.length
  if n % 2 = 1 then s.getD (n / 2) 0
  else (s.getD (n / 2 - 1) 0 + s.getD (n / 2) 0) / 2

/-- Dispatch on the aggregation kind. -/
def aggFn : AggType → List ℚ → ℚ
  | .mean => meanQ
  | .median => medianQ

/-- Aggregate one column of cells: pandas drops the NaN entries first
and yields NaN when nothing is left. -/
def aggOpt (a : AggType) (l : List Value) : Value :=
  if presentVals l = [] then none else some (aggFn a (presentVals l))

/-- The i-th candidate column of a dataframe, as a list of cells. -/
def colVals (df : Df) (i : Nat) : List Value :=
  df.rows.map (fun r => r.vals.getD i none)

/-- Per-column aggregation entries of `subset_df.mean()` /
`subset_df.median()` in `aggregate_with_lead_time` (line 267-270):
every column of the supplied dataframe is aggregated, in column order.
`i` is the index of the first column of `cs` inside the dataframe. -/
def aggEntries (a : AggType) (s : Df) : Nat → List String → List (String × Value)
  | _, [] => []
  | i, c :: cs => (c, aggOpt a (colVals s i)) :: aggEntries a s (i + 1) cs

/-- The single aggregated row produced from a window subset, with the
`date` column then overwritten by the target date (line 271). -/
def aggRow (a : AggType) (s : Df) (d : Int) : TrendPoint :=
  ⟨d, aggEntries a s 0 s.cols⟩

/-- The window selection of `aggregate_with_lead_time` (line 253):
rows with `date - lead_time <= row.date <= date`. -/
def windowSubset (df : Df) (d : Int) (lt : Nat) : Df :=
  ⟨df.cols, df.rows.filter (fun r => decide (r.date ≤ d ∧ d - (lt : Int) ≤ r.date))⟩

/-- Rows of the dataframe carrying exactly the given date. -/
def restrictDate (df : Df) (d : Int) : Df :=
  ⟨df.cols, df.rows.filter (fun r => decide (r.date = d))⟩

/-- Resolution of the `candidates` argument (line 250-251): `'all'`
means every non-base column, i.e. every column of our `Df`. -/
def resolveCands (df : Df) : Selector → List String
  | .all => df.cols
  | .names l => l

/-- The all-NaN single row returned when there is no data
(line 259): one `none` entry per resolved candidate. -/
def allMissing (d : Int) (cands : List String) : TrendPoint :=
  ⟨d, cands.map (fun c => (c, none))⟩

/-- The `while len(subset_df)==0 and lead_override` loop (lines 261-264),
with fuel: grow `lead_time` by one day and re-select until the window is
non-empty. `none` means the fuel ran out before the window filled. -/
def expandLoop (df : Df) (d : Int) : Nat → Nat → Option Nat
  | 0, lt => if (windowSubset df d lt).rows.isEmpty then none else some lt
  | f + 1, lt =>
    if (windowSubset df d lt).rows.isEmpty then expandLoop df d f (lt + 1)
    else some lt

/-- Model of `aggregate_with_lead_time` (lines 220-273).
Outcome `none`: the expansion loop did not finish within `fuel`.
Outcome `some (.error _)`: the Python code raised.
Outcome `some (.ok tp)`: the returned one-line dataframe. -/
def aggregateWithLeadTime (fuel : Nat) (df : Df) (d : Int) (lt : Nat)
    (lo : Bool) (a : AggType) (cands : Selector) (throwErr : Bool) :
    Option (Except String TrendPoint) :=
  let cl := resolveCands df cands
  if df.rows.isEmpty ∨ ((windowSubset df d lt).rows.isEmpty ∧ lo = false) then
    if throwErr then some (.error "No polling data")
    else some (.ok (allMissing d cl))
  else
    match expandLoop df d fuel lt with
    | none => none
    | some lt2 => some (.ok (aggRow a (windowSubset df d lt2) d))

/-! Row Normalizer: the candidate-column cleaning step of `get_polls`
(poll_agg.py lines 176-188) together with `utils.remove_non_numeric`
(utils.py lines 78-94). -/

/-- A raw cell as produced by `pandas.read_html`: a string, a NaN, or an
already-numeric value. -/
inductive Cell where
  | str (s : String)
  | nan
  | num (q : ℚ)
deriving Repr, DecidableEq

/-- Character filter of `remove_non_numeric`: keep digits and dots. -/
def stripCs (s : String) : List Char :=
  s.toList.filter (fun ch => ch.isDigit || ch == '.')

/-- Split a character list at its first dot: the part before it, and
(if a dot exists) the remainder after it. -/
def splitAtDot : List Char → List Char × Option (List Char)
  | [] => ([], none)
  | c :: cs =>
    if c = '.' then ([], some cs)
    else (c :: (splitAtDot cs).1, (splitAtDot cs).2)

/-- Numeric value of a digit list, most significant first. -/
def digitsVal (l : List Char) : ℚ :=
  l.foldl (fun acc c => 10 * acc + ((c.toNat : ℚ) - 48)) 0

/-- Model of Python `float(...)` restricted to strings of digits and
dots (which is all that survives the stripping): at most one dot and at
least one digit are required, otherwise a ValueError. -/
def parseFloatQ (l : List Char) : Option ℚ :=
  match splitAtDot l with
  | (a, none) => if a = [] then none else some (digitsVal a)
  | (a, some b) =>
    if b.contains '.' then none
    else if a = [] ∧ b = [] then none
    else some (digitsVal a + digitsVal b / 10 ^ b.length)

/-- Cleaning of one candidate cell (poll_agg.py lines 179-187): strip
non-numeric characters of a string, turn an emptied string into NaN,
convert to float (ValueError when the stripped text is not a float
literal), and divide by 100. Non-strings pass `remove_non_numeric`
unchanged and are converted directly. -/
def cleanSeriesCell : Cell → Except String Value
  | .nan => .ok none
  | .num q => .ok (some (q / 100))
  | .str s =>
    let st := stripCs s
    if st = [] then .ok none
    else
      match parseFloatQ st with
      | some q => .ok (some (q / 100))
      | none => .error (String.append "could not convert string to float: " (String.mk st))

/-- Cleaning of a whole candidate column: the first failing cell makes
the column conversion (`astype(float)`) raise. -/
def cleanColumn : List Cell → Except String (List Value)
  | [] => .ok []
  | c :: cs =>
    match cleanSeriesCell c, cleanColumn cs with
    | .ok v, .ok vs => .ok (v :: vs)
    | .error e, _ => .error e
    | _, .error e => .error e

/-- Syntactic well-formedness of a raw cell: its stripped form is empty
or is a well-formed decimal numeral (at most one dot, at least one
digit). Exactly these cells clean without an exception. -/
def cellOKb : Cell → Bool
  | .str s =>
    (stripCs s).isEmpty ||
      (decide ((stripCs s).count '.' ≤ 1) && (stripCs s).any Char.isDigit)
  | _ => true

/-! Int Range Resolver and Int Filter (poll_agg.py lines 70-136). -/

/-- Minimum of a pandas date column. On an empty column pandas yields
NaT, which poisons the later `(to_date - from_date).days` arithmetic;
that NaT outcome is modelled as an error here. -/
def minDate : List Int → Except String Int
  | [] => .error "NaT: empty date column"
  | d :: ds => .ok (ds.foldl min d)

/-- Maximum of a pandas date column, with the same NaT convention. -/
def maxDate : List Int → Except String Int
  | [] => .error "NaT: empty date column"
  | d :: ds => .ok (ds.foldl max d)

/-- One iteration of the loop body of `parse_from_to_date` (lines
122-135): an omitted bound reads the `date` column (KeyError when the
column is absent), a supplied bound is used as given. A textual bound
is already parsed in this model: dateutil parsing is outside the core.
`dateCol = none` models a dataframe lacking a `date` column. -/
def resolveOne (dateCol : Option (List Int)) (pick : List Int → Except String Int) :
    Option Int → Except String Int
  | some a => .ok a
  | none =>
    match dateCol with
    | none => .error "KeyError: date"
    | some ds => pick ds

/-- Model of `parse_from_to_date` (lines 102-136): the from-bound is
resolved first (min of the column when omitted), then the to-bound
(max of the column when omitted). -/
def parseFromToDate (dateCol : Option (List Int)) (f t : Option Int) :
    Except String (Int × Int) :=
  match resolveOne dateCol minDate f with
  | .error e => .error e
  | .ok f2 =>
    match resolveOne dateCol maxDate t with
    | .error e => .error e
    | .ok t2 => .ok (f2, t2)

/-- Model of `filter_by_date` (lines 70-99): keep rows with
`from_date <= date` when a from-bound is given, then rows with
`date <= to_date` when a to-bound is given. -/
def filterByDate (df : Df) (f t : Option Int) : Df :=
  let r1 := match f with
    | none => df.rows
    | some a => df.rows.filter (fun r => decide (a ≤ r.date))
  let r2 := match t with
    | none => r1
    | some b => r1.filter (fun r => decide (r.date ≤ b))
  ⟨df.cols, r2⟩

/-! Candidate validation, column selection, and the Trend Builder
`aggregate_polls` (poll_agg.py lines 202-217 and 276-392). -/

/-- Model of `validate_candidates` (lines 202-217): `'all'` resolves to
every non-base column; an explicit list fails on its first name that is
not a dataframe column. -/
def validateCandidates (df : Df) : Selector → Except String (List String)
  | .all => .ok df.cols
  | .names l =>
    match l.find? (fun c => !(df.cols.contains c)) with
    | some c => .error (String.append "Invalid candidate: " c)
    | none => .ok l

/-- Column selection `polls_df[BASE_COLS + candidates]` followed by
dropping `pollster` and `n` (lines 326-329): the dataframe keeps the
date and exactly the selected candidate columns, in selector order. -/
def selectCols (df : Df) (names : List String) : Df :=
  ⟨names, df.rows.map (fun r => ⟨r.date, names.map (fun n => r.vals.getD (df.cols.indexOf n) none)⟩)⟩

/-- The effective date bounds of a run of `aggregate_polls`
(lines 331-333): the dataframe is filtered by the user-supplied bounds
first, and omitted bounds are then resolved against the column of the
already-filtered dataframe. -/
def resolvedBoundsIn (df : Df) (names : List String) (f t : Option Int) :
    Except String (Int × Int) :=
  parseFromToDate (some ((filterByDate (selectCols df names) f t).rows.map (fun r => r.date))) f t

/-- The regular date grid (line 337): `range(0, (to-from).days+1, inc)`
mapped over `from + k` days. Empty when the to-bound precedes the
from-bound. `inc = 0` is rejected earlier (Python `range` ValueError). -/
def gridDates (f2 t2 : Int) (inc : Nat) : List Int :=
  if t2 < f2 then []
  else (List.range ((t2 - f2).toNat / inc + 1)).map (fun k => f2 + ((k * inc : Nat) : Int))

/-- Sorted insertion for date lists. -/
def insertDate (d : Int) : List Int → List Int
  | [] => [d]
  | x :: xs => if d ≤ x then d :: x :: xs else x :: insertDate d xs

/-- Ascending sort of a date list. -/
def sortDates (l : List Int) : List Int :=
  l.foldr insertDate []

/-- The exact-match aggregate row for one date. -/
def exactRow (a : AggType) (df : Df) (d : Int) : TrendPoint :=
  aggRow a (restrictDate df d) d

/-- Model of `polls_df.groupby('date').agg(agg_type).reset_index()`
(line 350): one aggregated row per distinct observed date, with the
group keys in ascending order. -/
def exactAggTable (a : AggType) (df : Df) : List TrendPoint :=
  (sortDates (df.rows.map (fun r => r.date)).dedup).map (fun d => exactRow a df d)

/-- Sorted insertion of a trend row by date. -/
def insertByDate (tp : TrendPoint) : List TrendPoint → List TrendPoint
  | [] => [tp]
  | x :: xs => if tp.date ≤ x.date then tp :: x :: xs else x :: insertByDate tp xs

/-- The final `out_df.sort_values(by='date')` (line 389). The keys that
occur are pairwise distinct in every reachable call, so any correct
sort models the pandas quicksort. -/
def sortByDate (l : List TrendPoint) : List TrendPoint :=
  l.foldr insertByDate []

/-- The body of the per-grid-date loop of `aggregate_polls`
(lines 358-386) for one grid date: under `if_missing` a date present in
the exact table is copied from it, otherwise (and always under
`always`) `aggregate_with_lead_time` is invoked with
`throw_error=False`. -/
def rowFor (fuel : Nat) (df2 : Df) (names : List String) (a : AggType)
    (lt : Nat) (lo : Bool) (pol : Interp) (trends : List TrendPoint) (d : Int) :
    Option (Except String TrendPoint) :=
  if pol = .if_missing ∧ trends.any (fun tp => decide (tp.date = d)) then
    some (.ok ((trends.find? (fun tp => decide (tp.date = d))).getD (allMissing d names)))
  else
    aggregateWithLeadTime fuel df2 d lt lo a (.names names) false

/-- The per-grid-date loop of `aggregate_polls` (lines 358-386), one
`rowFor` row appended per grid date. `none` propagates a diverging
expansion loop; an error propagates a raise, stopping the loop. -/
def buildRows (fuel : Nat) (df2 : Df) (names : List String) (a : AggType)
    (lt : Nat) (lo : Bool) (pol : Interp) (trends : List TrendPoint) :
    List Int → Option (Except String (List TrendPoint))
  | [] => some (.ok [])
  | d :: ds =>
    match rowFor fuel df2 names a lt lo pol trends d with
    | none => none
    | some (.error e) => some (.error e)
    | some (.ok r) =>
      match buildRows fuel df2 names a lt lo pol trends ds with
      | none => none
      | some (.error e) => some (.error e)
      | some (.ok rs) => some (.ok (r :: rs))

/-- Model of `aggregate_polls` (lines 276-392). The enum checks of
lines 319-322 are subsumed by the inductive argument types. Outcome
`none` models a diverging expansion loop inside the per-date step;
`some (.error _)` a raised exception; `some (.ok _)` the returned
trends dataframe (as its list of rows). -/
def aggregatePolls (fuel : Nat) (df : Df) (cands : Selector) (a : AggType)
    (inc : Nat) (lt : Nat) (lo : Bool) (pol : Interp) (f t : Option Int) :
    Option (Except String (List TrendPoint)) :=
  match validateCandidates df cands with
  | .error e => some (.error e)
  | .ok names =>
    match resolvedBoundsIn df names f t with
    | .error e => some (.error e)
    | .ok (f2, t2) =>
      if inc = 0 then some (.error "ValueError: range arg 3 must not be zero")
      else
        let df2 := filterByDate (selectCols df names) f t
        let dates := gridDates f2 t2 inc
        let trends := exactAggTable a df2
        match pol with
        | .never => some (.ok (sortByDate trends))
        | _ =>
          if dates.isEmpty then some (.error "KeyError: date (sort on empty frame)")
          else
            match buildRows fuel df2 names a lt lo pol trends dates with
            | none => none
            | some (.error e) => some (.error e)
            | some (.ok rows) => some (.ok (sortByDate rows))

/-! Concrete dataframes used by counterexamples and witnesses. -/

/-- A one-row observation set whose only observation is dated day 5. -/
def dfAfter : Df :=
  ⟨["A"], [⟨5, [some 40]⟩]⟩

/-- A two-column observation set: on day 0 only column A is present, on
day 5 only column B is present. -/
def dfSplit : Df :=
  ⟨["A", "B"], [⟨0, [some 40, none]⟩, ⟨5, [none, some 30]⟩]⟩

/-- A tiny one-column, one-row observation set (day 0, value 1). -/
def dfOne : Df :=
  ⟨["A"], [⟨0, [some 1]⟩]⟩

/-- A two-column observation set with rows on days 0 and 2. -/
def dfTwo : Df :=
  ⟨["A", "B"], [⟨0, [some 40, some 30]⟩, ⟨2, [some 50, none]⟩]⟩

/-- A one-column observation set whose single cell is missing. -/
def dfNan : Df :=
  ⟨["A"], [⟨0, [none]⟩]⟩

/-! Helper lemmas about the windowed aggregator. -/

theorem windowSubset_cols (df : Df) (d : Int) (lt : Nat) :
    (windowSubset df d lt).cols = df.cols := rfl

theorem rows_ne_nil_of_window (df : Df) (d : Int) (lt : Nat)
    (h : (windowSubset df d lt).rows ≠ []) : df.rows ≠ [] := by
  intro h0
  apply h
  simp [windowSubset, h0]

theorem window_mem (df : Df) (d : Int) (lt : Nat) (r0 : Row)
    (hmem : r0 ∈ df.rows) (h1 : r0.date ≤ d) (h2 : d - (lt : Int) ≤ r0.date) :
    (windowSubset df d lt).rows ≠ [] := by
  have : r0 ∈ (windowSubset df d lt).rows :=
    List.mem_filter.mpr ⟨hmem, by simp [h1, h2]⟩
  exact List.ne_nil_of_mem this

theorem expandLoop_of_ne (df : Df) (d : Int) (fuel lt : Nat)
    (h : (windowSubset df d lt).rows ≠ []) :
    expandLoop df d fuel lt = some lt := by
  have hb : (windowSubset df d lt).rows.isEmpty = false := by
    simpa [List.isEmpty_iff] using h
  cases fuel <;> simp [expandLoop, hb]

theorem awlt_of_window_ne (fuel : Nat) (df : Df) (d : Int) (lt : Nat)
    (lo : Bool) (a : AggType) (cands : Selector) (te : Bool)
    (h : (windowSubset df d lt).rows ≠ []) :
    aggregateWithLeadTime fuel df d lt lo a cands te =
      some (.ok (aggRow a (windowSubset df d lt) d)) := by
  have hdf : df.rows ≠ [] := rows_ne_nil_of_window df d lt h
  have hb : (windowSubset df d lt).rows.isEmpty = false := by
    simpa [List.isEmpty_iff] using h
  have hdfb : df.rows.isEmpty = false := by
    simpa [List.isEmpty_iff] using hdf
  simp [aggregateWithLeadTime, hb, hdfb, expandLoop_of_ne df d fuel lt h]

theorem awlt_of_window_empty (fuel : Nat) (df : Df) (d : Int) (lt : Nat)
    (a : AggType) (cands : Selector)
    (hdf : df.rows ≠ []) (hw : (windowSubset df d lt).rows = []) :
    aggregateWithLeadTime fuel df d lt false a cands false =
      some (.ok (allMissing d (resolveCands df cands))) := by
  have hdfb : df.rows.isEmpty = false := by
    simpa [List.isEmpty_iff] using hdf
  simp [aggregateWithLeadTime, hdfb, hw]

theorem windowSubset_zero (df : Df) (d : Int) :
    windowSubset df d 0 = restrictDate df d := by
  unfold windowSubset restrictDate
  congr 1
  apply List.filter_congr
  intro r _
  simp only [Nat.cast_zero, sub_zero, decide_eq_decide]
  omega

theorem aggEntries_map_fst (a : AggType) (s : Df) :
    ∀ (cs : List String) (i : Nat), (aggEntries a s i cs).map Prod.fst = cs := by
  intro cs
  induction cs with
  | nil => intro i; rfl
  | cons c cs ih => intro i; simp [aggEntries, ih]

theorem aggEntries_length (a : AggType) (s : Df) :
    ∀ (cs : List String) (i : Nat), (aggEntries a s i cs).length = cs.length := by
  intro cs
  induction cs with
  | nil => intro i; rfl
  | cons c cs ih => intro i; simp [aggEntries, ih]

theorem aggEntries_getD (a : AggType) (s : Df) :
    ∀ (cs : List String) (i k : Nat), k < cs.length →
      (aggEntries a s i cs).getD k ("", none) =
        (cs.getD k "", aggOpt a (colVals s (i + k))) := by
  intro cs
  induction cs with
  | nil => intro i k hk; simp at hk
  | cons c cs ih =>
    intro i k hk
    cases k with
    | zero => simp [aggEntries]
    | succ k2 =>
      have harith : i + 1 + k2 = i + (k2 + 1) := by omega
      have := ih (i + 1) k2 (by simpa using hk)
      simpa [aggEntries, harith] using this

theorem aggOpt_eq_none (a : AggType) (l : List Value) :
    aggOpt a l = none ↔ presentVals l = [] := by
  unfold aggOpt
  split <;> simp_all

/-! Claim C3. -/

/-- C3, corrected: for every non-empty observation set, when the window
selection is empty and lead_override is false, `aggregate_with_lead_time`
with `throw_error=False` returns a single TrendPoint carrying the target
date with every resolved candidate missing, and raises no error. (The
claim is false for `throw_error=True`: the code then raises even though
the full set is non-empty, see the counterexample.) -/
theorem c3_no_error_amended (fuel : Nat) (df : Df) (d : Int) (lt : Nat)
    (a : AggType) (cands : Selector)
    (hdf : df.rows ≠ []) (hw : (windowSubset df d lt).rows = []) :
    aggregateWithLeadTime fuel df d lt false a cands false =
      some (.ok (allMissing d (resolveCands df cands))) :=
  awlt_of_window_empty fuel df d lt a cands hdf hw

/-- C3, counterexample: with a non-empty observation set (one row dated
day 10), an empty window at target day 0, lead_override false and
throw_error True, the code raises a ValueError instead of returning the
all-missing TrendPoint the claim promises for every value of
throw_error. -/
theorem c3_no_error_counterexample :
    aggregateWithLeadTime 0 (Df.mk ["A"] [Row.mk 10 [some 1]]) 0 0 false
      AggType.mean Selector.all true = some (Except.error "No polling data") := by
  rfl

/-- C3, witness: the amended theorem applied at a concrete input. -/
theorem c3_no_error_witness :
    aggregateWithLeadTime 0 dfAfter 0 0 false AggType.mean Selector.all false =
      some (Except.ok (allMissing 0 (resolveCands dfAfter Selector.all))) :=
  c3_no_error_amended 0 dfAfter 0 0 AggType.mean Selector.all (by decide) (by rfl)

/-! Claim C4. -/

/-- C4, corrected: resolving date bounds against a dataset lacking a
date column fails with a missing-key error whenever at least one of the
two bounds is omitted. (The claim is false for the combination in which
both bounds are supplied: the date column is then never accessed and no
error is raised, see the counterexample.) -/
theorem c4_missing_key_amended (f t : Option Int) (h : f = none ∨ t = none) :
    parseFromToDate none f t = .error "KeyError: date" := by
  rcases h with h | h
  · subst h
    rfl
  · subst h
    cases f with
    | none => rfl
    | some a => rfl

/-- C4, counterexample: on a dataset lacking a date column but with both
bounds supplied, `parse_from_to_date` returns the bounds and raises no
missing-key error, contradicting the claim's quantification over every
combination of supplied or omitted bounds. -/
theorem c4_missing_key_counterexample :
    parseFromToDate none (some 0) (some 1) = Except.ok (0, 1) := by
  rfl

/-- C4, witness: the amended theorem applied at a concrete input. -/
theorem c4_missing_key_witness :
    parseFromToDate none none (some 5) = Except.error "KeyError: date" :=
  c4_missing_key_amended none (some 5) (Or.inl rfl)

/-! Claim C5. -/

/-- C5, confirmed: for every non-empty observation set and every date d,
`aggregate_with_lead_time` with lead_time 0 and lead_override false
returns exactly the exact-match aggregate of the observations dated d
when at least one such observation exists, and the all-missing
TrendPoint otherwise. -/
theorem c5_window_zero_exact (fuel : Nat) (df : Df) (d : Int) (a : AggType)
    (hdf : df.rows ≠ []) :
    ((∃ r ∈ df.rows, r.date = d) →
      aggregateWithLeadTime fuel df d 0 false a .all false =
        some (.ok (exactRow a df d))) ∧
    ((¬ ∃ r ∈ df.rows, r.date = d) →
      aggregateWithLeadTime fuel df d 0 false a .all false =
        some (.ok (allMissing d df.cols))) := by
  constructor
  · rintro ⟨r, hr, hrd⟩
    have hne : (windowSubset df d 0).rows ≠ [] := by
      rw [windowSubset_zero]
      exact List.ne_nil_of_mem (List.mem_filter.mpr ⟨hr, by simp [hrd]⟩)
    rw [awlt_of_window_ne fuel df d 0 false a .all false hne, windowSubset_zero]
    rfl
  · intro hno
    have hw : (windowSubset df d 0).rows = [] := by
      rw [windowSubset_zero]
      unfold restrictDate
      simp only
      rw [List.filter_eq_nil_iff]
      intro r hr
      simp only [decide_eq_true_eq]
      exact fun hd => hno ⟨r, hr, hd⟩
    exact awlt_of_window_empty fuel df d 0 a .all hdf hw

/-- C5, witness: the theorem applied at a concrete input, in both the
exact-match and the no-match direction. -/
theorem c5_window_zero_exact_witness :
    (aggregateWithLeadTime 0 dfTwo 2 0 false AggType.mean Selector.all false =
      some (Except.ok (exactRow AggType.mean dfTwo 2))) ∧
    (aggregateWithLeadTime 0 dfTwo 1 0 false AggType.mean Selector.all false =
      some (Except.ok (allMissing 1 dfTwo.cols))) :=
  ⟨(c5_window_zero_exact 0 dfTwo 2 AggType.mean (by decide)).1
      ⟨Row.mk 2 [some 50, none], by decide, rfl⟩,
   (c5_window_zero_exact 0 dfTwo 1 AggType.mean (by decide)).2 (by decide)⟩

/-! Claim C8. -/

/-- C8, confirmed: on a non-empty window selection the returned
TrendPoint aggregates each series over the present values of that
series' own column alone; a series with zero present values inside the
window yields missing (never zero) for that series, without affecting
the sibling entries, which are likewise functions of their own columns
only. -/
theorem c8_missing_value_semantics (fuel : Nat) (df : Df) (d : Int) (lt : Nat)
    (lo : Bool) (a : AggType) (cands : Selector) (te : Bool)
    (hw : (windowSubset df d lt).rows ≠ []) :
    ∃ tp, aggregateWithLeadTime fuel df d lt lo a cands te = some (.ok tp) ∧
      tp.date = d ∧
      tp.entries.length = df.cols.length ∧
      (∀ i, i < df.cols.length →
        tp.entries.getD i ("", none) =
          (df.cols.getD i "", aggOpt a (colVals (windowSubset df d lt) i))) ∧
      (∀ i, presentVals (colVals (windowSubset df d lt) i) = [] →
        aggOpt a (colVals (windowSubset df d lt) i) = none) := by
  refine ⟨aggRow a (windowSubset df d lt) d,
    awlt_of_window_ne fuel df d lt lo a cands te hw, rfl, ?_, ?_, ?_⟩
  · show (aggEntries a (windowSubset df d lt) 0 (windowSubset df d lt).cols).length
      = df.cols.length
    rw [aggEntries_length]
    rfl
  · intro i hi
    have hg := aggEntries_getD a (windowSubset df d lt) (windowSubset df d lt).cols 0 i
      (by simpa [windowSubset_cols] using hi)
    simpa [aggRow, windowSubset_cols] using hg
  · intro i hp
    exact (aggOpt_eq_none a _).mpr hp

/-- C8, witness: the theorem applied at a window holding one row in
which series A is present and series B is missing; B's entry is missing
while A's is not. -/
theorem c8_missing_value_semantics_witness :
    ∃ tp, aggregateWithLeadTime 0 dfSplit 5 0 true AggType.mean Selector.all false =
      some (Except.ok tp) ∧
      tp.date = 5 ∧
      tp.entries.length = dfSplit.cols.length ∧
      (∀ i, i < dfSplit.cols.length →
        tp.entries.getD i ("", none) =
          (dfSplit.cols.getD i "", aggOpt AggType.mean (colVals (windowSubset dfSplit 5 0) i))) ∧
      (∀ i, presentVals (colVals (windowSubset dfSplit 5 0) i) = [] →
        aggOpt AggType.mean (colVals (windowSubset dfSplit 5 0) i) = none) :=
  c8_missing_value_semantics 0 dfSplit 5 0 true AggType.mean Selector.all false (by decide)

/-! Claim C10. -/

/-- C10, confirmed: when the window selection is non-empty,
`aggregate_with_lead_time` aggregates every column of the supplied
dataframe, whatever candidate list is passed; the candidates argument
shapes only the all-missing no-data branch, whose entries are exactly
the requested candidates. -/
theorem c10_all_columns_aggregated (fuel : Nat) (df : Df) (d : Int) (lt : Nat)
    (lo : Bool) (a : AggType) (cl : List String) (te : Bool) :
    ((windowSubset df d lt).rows ≠ [] →
      ∃ tp, aggregateWithLeadTime fuel df d lt lo a (.names cl) te = some (.ok tp) ∧
        tp.entries.map Prod.fst = df.cols) ∧
    (df.rows ≠ [] → (windowSubset df d lt).rows = [] → lo = false →
      aggregateWithLeadTime fuel df d lt lo a (.names cl) false =
        some (.ok (allMissing d cl)) ∧
      (allMissing d cl).entries.map Prod.fst = cl) := by
  constructor
  · intro hw
    refine ⟨aggRow a (windowSubset df d lt) d,
      awlt_of_window_ne fuel df d lt lo a (.names cl) te hw, ?_⟩
    show (aggEntries a (windowSubset df d lt) 0 (windowSubset df d lt).cols).map Prod.fst
      = df.cols
    rw [aggEntries_map_fst]
    rfl
  · intro hdf hw hlo
    subst hlo
    refine ⟨awlt_of_window_empty fuel df d lt a (.names cl) hdf hw, ?_⟩
    show (List.map (fun c => (c, (none : Value))) cl).map Prod.fst = cl
    rw [List.map_map]
    exact List.map_id cl

/-- C10, witness: a dataframe with columns A and B, candidates
restricted to A, and a non-empty window: the aggregated row still
carries both A and B. -/
theorem c10_all_columns_aggregated_witness :
    ∃ tp, aggregateWithLeadTime 2 dfSplit 5 0 true AggType.mean (Selector.names ["A"]) false =
      some (Except.ok tp) ∧ tp.entries.map Prod.fst = ["A", "B"] :=
  (c10_all_columns_aggregated 2 dfSplit 5 0 true AggType.mean ["A"] false).1 (by decide)

/-! Claim C9. -/

/-- C9, confirmed: in `aggregate_polls` the user-supplied bounds filter
the data before bound resolution (`resolvedBoundsIn` is exactly lines
331-333 of the source), so an omitted from-bound resolves to the
minimum date of the already-filtered dataframe and an omitted to-bound
to its maximum — including the NaT outcome when the filtered dataframe
is empty even though the original is not, which pins down that the
already-filtered data and not the original is consulted. -/
theorem c9_filter_before_resolve (df : Df) (names : List String) (a b : Int) :
    (resolvedBoundsIn df names none (some b) =
      (minDate ((filterByDate (selectCols df names) none (some b)).rows.map
        (fun r => r.date))).map (fun m => (m, b))) ∧
    (resolvedBoundsIn df names (some a) none =
      (maxDate ((filterByDate (selectCols df names) (some a) none).rows.map
        (fun r => r.date))).map (fun m => (a, m))) := by
  constructor
  · cases h : minDate ((filterByDate (selectCols df names) none (some b)).rows.map
        (fun r => r.date)) with
    | error e => simp [resolvedBoundsIn, parseFromToDate, resolveOne, h, Except.map]
    | ok m => simp [resolvedBoundsIn, parseFromToDate, resolveOne, h, Except.map]
  · cases h : maxDate ((filterByDate (selectCols df names) (some a) none).rows.map
        (fun r => r.date)) with
    | error e => simp [resolvedBoundsIn, parseFromToDate, resolveOne, h, Except.map]
    | ok m => simp [resolvedBoundsIn, parseFromToDate, resolveOne, h, Except.map]

/-! Claim C1. -/

theorem expandLoop_terminates (df : Df) (d : Int) (r0 : Row)
    (hmem : r0 ∈ df.rows) (hle : r0.date ≤ d) :
    ∀ fuel lt, (d - r0.date).toNat ≤ lt + fuel →
      ∃ lt2, expandLoop df d fuel lt = some lt2 ∧ (windowSubset df d lt2).rows ≠ [] := by
  intro fuel
  induction fuel with
  | zero =>
    intro lt hlt
    have hne : (windowSubset df d lt).rows ≠ [] :=
      window_mem df d lt r0 hmem hle (by omega)
    have hb : (windowSubset df d lt).rows.isEmpty = false := by
      simpa [List.isEmpty_iff] using hne
    exact ⟨lt, by simp [expandLoop, hb], hne⟩
  | succ n ih =>
    intro lt hlt
    by_cases hW : (windowSubset df d lt).rows = []
    · have hb : (windowSubset df d lt).rows.isEmpty = true := by simp [hW]
      obtain ⟨lt2, h1, h2⟩ := ih (lt + 1) (by omega)
      exact ⟨lt2, by simp [expandLoop, hb, h1], h2⟩
    · have hb : (windowSubset df d lt).rows.isEmpty = false := by
        simpa [List.isEmpty_iff] using hW
      exact ⟨lt, by simp [expandLoop, hb], hW⟩

/-- C1, corrected: window expansion terminates whenever at least one
observation is dated on or before the target date (sufficient fuel for
the loop exists), and the aggregated result is then non-missing exactly
for the series that have at least one present value inside the finally
selected window — not for every series with a present value anywhere in
the set, and not for any target date preceding every observation (see
the counterexample, where the loop never terminates). -/
theorem c1_expansion_amended (df : Df) (d : Int) (lt : Nat) (a : AggType)
    (cands : Selector) (te : Bool) (r0 : Row)
    (hmem : r0 ∈ df.rows) (hle : r0.date ≤ d) :
    ∃ fuel lt2 tp,
      expandLoop df d fuel lt = some lt2 ∧
      aggregateWithLeadTime fuel df d lt true a cands te = some (.ok tp) ∧
      tp.date = d ∧
      (windowSubset df d lt2).rows ≠ [] ∧
      (∀ i, i < df.cols.length →
        ((tp.entries.getD i ("", none)).2 ≠ none ↔
          presentVals (colVals (windowSubset df d lt2) i) ≠ [])) := by
  obtain ⟨lt2, h1, h2⟩ :=
    expandLoop_terminates df d r0 hmem hle ((d - r0.date).toNat) lt (by omega)
  have hdf : df.rows ≠ [] := List.ne_nil_of_mem hmem
  have hdfb : df.rows.isEmpty = false := by simpa [List.isEmpty_iff] using hdf
  refine ⟨(d - r0.date).toNat, lt2, aggRow a (windowSubset df d lt2) d, h1, ?_, rfl, h2, ?_⟩
  · simp [aggregateWithLeadTime, hdfb, h1]
  · intro i hi
    have hg := aggEntries_getD a (windowSubset df d lt2) (windowSubset df d lt2).cols 0 i
      (by simpa [windowSubset_cols] using hi)
    have he : (aggRow a (windowSubset df d lt2) d).entries.getD i ("", none) =
        ((windowSubset df d lt2).cols.getD i "",
          aggOpt a (colVals (windowSubset df d lt2) i)) := by
      simpa [aggRow] using hg
    rw [he]
    exact not_congr (aggOpt_eq_none a _)

/-- C1, counterexample: a non-empty observation set (one row dated day
5) and target day 0 — every observation lies strictly after the target,
so every window is empty and the expansion loop runs forever: for no
amount of fuel does `aggregate_with_lead_time` return, refuting the
claim's termination for every target date. -/
theorem c1_expansion_counterexample :
    ¬ ∃ fuel r, aggregateWithLeadTime fuel dfAfter 0 7 true AggType.mean
      Selector.all false = some r := by
  have hsub : ∀ lt : Nat, (windowSubset dfAfter 0 lt).rows = [] := by
    intro lt
    unfold windowSubset dfAfter
    simp only
    rw [List.filter_eq_nil_iff]
    intro r hr
    simp only [List.mem_singleton] at hr
    subst hr
    simp only [decide_eq_true_eq]
    omega
  have hloop : ∀ fuel lt, expandLoop dfAfter 0 fuel lt = none := by
    intro fuel
    induction fuel with
    | zero => intro lt; simp [expandLoop, hsub lt]
    | succ n ih => intro lt; simp [expandLoop, hsub lt, ih (lt + 1)]
  rintro ⟨fuel, r, hr⟩
  have hne : ¬ dfAfter.rows = [] := by decide
  have hnone : aggregateWithLeadTime fuel dfAfter 0 7 true AggType.mean
      Selector.all false = none := by
    simp [aggregateWithLeadTime, hsub 7, hloop fuel 7, hne]
  rw [hnone] at hr
  exact Option.noConfusion hr

/-- C1, witness: the amended theorem applied at a concrete input with
an observation at or before the target date. -/
theorem c1_expansion_witness :
    ∃ fuel lt2 tp,
      expandLoop dfSplit 3 fuel 0 = some lt2 ∧
      aggregateWithLeadTime fuel dfSplit 3 0 true AggType.mean Selector.all false =
        some (Except.ok tp) ∧
      tp.date = 3 ∧
      (windowSubset dfSplit 3 lt2).rows ≠ [] ∧
      (∀ i, i < dfSplit.cols.length →
        ((tp.entries.getD i ("", none)).2 ≠ none ↔
          presentVals (colVals (windowSubset dfSplit 3 lt2) i) ≠ [])) :=
  c1_expansion_amended dfSplit 3 0 AggType.mean Selector.all false
    (Row.mk 0 [some 40, none]) (by decide) (by decide)

/-! Claim C2: lemmas about the float parser, then the claim. -/

theorem splitAtDot_no_dot : ∀ (l a : List Char) (r : Option (List Char)),
    splitAtDot l = (a, r) → '.' ∉ a := by
  intro l
  induction l with
  | nil =>
    intro a r h
    simp only [splitAtDot] at h
    cases h
    simp
  | cons c cs ih =>
    intro a r h
    by_cases hc : c = '.'
    · simp only [splitAtDot, if_pos hc] at h
      cases h
      simp
    · simp only [splitAtDot, if_neg hc] at h
      cases h
      intro hmem
      rcases List.mem_cons.mp hmem with h1 | h1
      · exact hc h1.symm
      · exact ih (splitAtDot cs).1 (splitAtDot cs).2 rfl h1

theorem splitAtDot_none_eq : ∀ (l a : List Char),
    splitAtDot l = (a, none) → l = a := by
  intro l
  induction l with
  | nil =>
    intro a h
    simp only [splitAtDot] at h
    cases h
    rfl
  | cons c cs ih =>
    intro a h
    by_cases hc : c = '.'
    · simp only [splitAtDot, if_pos hc] at h
      injection h with h1 h2
      exact Option.noConfusion h2
    · simp only [splitAtDot, if_neg hc] at h
      injection h with h1 h2
      rw [← h1]
      exact congrArg (List.cons c) (ih (splitAtDot cs).1 (by rw [← h2]))

theorem splitAtDot_some_eq : ∀ (l a b : List Char),
    splitAtDot l = (a, some b) → l = a ++ '.' :: b := by
  intro l
  induction l with
  | nil =>
    intro a b h
    simp only [splitAtDot] at h
    injection h with h1 h2
    exact Option.noConfusion h2
  | cons c cs ih =>
    intro a b h
    by_cases hc : c = '.'
    · simp only [splitAtDot, if_pos hc] at h
      injection h with h1 h2
      injection h2 with h3
      rw [← h1, ← h3, hc]
      rfl
    · simp only [splitAtDot, if_neg hc] at h
      injection h with h1 h2
      rw [← h1, List.cons_append]
      exact congrArg (List.cons c) (ih (splitAtDot cs).1 b (by rw [← h2]))

theorem parseFloatQ_isSome (l : List Char)
    (hcount : l.count '.' ≤ 1) (hdig : l.any Char.isDigit = true) :
    (parseFloatQ l).isSome = true := by
  rcases hsp : splitAtDot l with ⟨a, r⟩
  cases r with
  | none =>
    have hl : l = a := splitAtDot_none_eq l a hsp
    have hne : ¬ a = [] := by
      intro h0
      rw [hl, h0] at hdig
      simp at hdig
    simp [parseFloatQ, hsp, hne]
  | some b =>
    have hl : l = a ++ '.' :: b := splitAtDot_some_eq l a b hsp
    have hna : '.' ∉ a := splitAtDot_no_dot l a (some b) hsp
    have hcb : b.count '.' = 0 := by
      have hsplit : l.count '.' = a.count '.' + (b.count '.' + 1) := by
        rw [hl, List.count_append, List.count_cons_self]
      have ha0 : a.count '.' = 0 := List.count_eq_zero.mpr hna
      omega
    have hnb : '.' ∉ b := List.count_eq_zero.mp hcb
    have hcontains : b.contains '.' = false := by simpa using hnb
    have hab : ¬ (a = [] ∧ b = []) := by
      rintro ⟨ha, hb⟩
      rw [hl, ha, hb] at hdig
      exact absurd hdig (by decide)
    simp [parseFloatQ, hsp, hnb, hab]

theorem cleanSeriesCell_ok (c : Cell) (h : cellOKb c = true) :
    ∃ v, cleanSeriesCell c = .ok v := by
  cases c with
  | nan => exact ⟨none, rfl⟩
  | num q => exact ⟨some (q / 100), rfl⟩
  | str s =>
    by_cases he : stripCs s = []
    · exact ⟨none, by simp [cleanSeriesCell, he]⟩
    · have hb : (stripCs s).isEmpty = false := by
        simpa [List.isEmpty_iff] using he
      simp only [cellOKb, hb, Bool.false_or, Bool.and_eq_true, decide_eq_true_eq] at h
      obtain ⟨q, hq⟩ :=
        Option.isSome_iff_exists.mp (parseFloatQ_isSome (stripCs s) h.1 h.2)
      exact ⟨some (q / 100), by simp [cleanSeriesCell, he, hq]⟩

/-- C2, corrected: every series cell whose stripped (digits-and-dots)
form is empty or is a well-formed decimal numeral — at most one dot and
at least one digit — becomes float-typed or missing, without any
exception; the claim fails for the remaining malformed cells, whose
float conversion raises a ValueError (see the counterexample). -/
theorem c2_row_normalizer_amended (col : List Cell)
    (h : ∀ c ∈ col, cellOKb c = true) :
    ∃ vals, cleanColumn col = .ok vals ∧ vals.length = col.length := by
  induction col with
  | nil => exact ⟨[], rfl, rfl⟩
  | cons c cs ih =>
    obtain ⟨v, hv⟩ := cleanSeriesCell_ok c (h c (List.mem_cons_self c cs))
    obtain ⟨vs, hvs, hlen⟩ := ih (fun x hx => h x (List.mem_cons_of_mem c hx))
    exact ⟨v :: vs, by simp [cleanColumn, hv, hvs], by simp [hlen]⟩

/-- C2, counterexample: the raw cell `"1.2.3"` survives stripping
unchanged and then `astype(float)` raises a ValueError, so the cleaning
step does raise for a malformed cell instead of producing missing. -/
theorem c2_row_normalizer_counterexample :
    cleanColumn [Cell.str "1.2.3"] =
      Except.error "could not convert string to float: 1.2.3" := by
  rfl

/-- C2, witness: the amended theorem applied to a column of well-formed
cells, among them a percentage string, a cell stripping to empty, a NaN
and an already-numeric value. -/
theorem c2_row_normalizer_witness :
    ∃ vals, cleanColumn [Cell.str "43%", Cell.str "n/a", Cell.nan, Cell.num 7] =
      .ok vals ∧ vals.length = 4 :=
  c2_row_normalizer_amended [Cell.str "43%", Cell.str "n/a", Cell.nan, Cell.num 7]
    (by decide)

/-! Claims C6 and C7: lemmas about the trend builder, then the claims. -/

theorem insertByDate_length (tp : TrendPoint) :
    ∀ l : List TrendPoint, (insertByDate tp l).length = l.length + 1 := by
  intro l
  induction l with
  | nil => rfl
  | cons x xs ih =>
    simp only [insertByDate]
    split
    · rfl
    · simp [ih]

theorem sortByDate_length : ∀ l : List TrendPoint, (sortByDate l).length = l.length := by
  intro l
  induction l with
  | nil => rfl
  | cons x xs ih =>
    show (insertByDate x (sortByDate xs)).length = xs.length + 1
    rw [insertByDate_length, ih]

theorem buildRows_length (fuel : Nat) (df2 : Df) (names : List String) (a : AggType)
    (lt : Nat) (lo : Bool) (pol : Interp) (trends : List TrendPoint) :
    ∀ (ds : List Int) (rows : List TrendPoint),
      buildRows fuel df2 names a lt lo pol trends ds = some (.ok rows) →
      rows.length = ds.length := by
  intro ds
  induction ds with
  | nil =>
    intro rows h
    simp only [buildRows, Option.some.injEq, Except.ok.injEq] at h
    subst h
    rfl
  | cons d ds ih =>
    intro rows h
    cases hrow : rowFor fuel df2 names a lt lo pol trends d with
    | none => simp [buildRows, hrow] at h
    | some er =>
      cases er with
      | error e => simp [buildRows, hrow] at h
      | ok r =>
        cases hrest : buildRows fuel df2 names a lt lo pol trends ds with
        | none => simp [buildRows, hrow, hrest] at h
        | some er2 =>
          cases er2 with
          | error e2 => simp [buildRows, hrow, hrest] at h
          | ok rs =>
            simp only [buildRows, hrow, hrest, Option.some.injEq, Except.ok.injEq] at h
            subst h
            simp [ih rs hrest]

theorem gridDates_length (f2 t2 : Int) (inc : Nat) (h : ¬ t2 < f2) :
    (gridDates f2 t2 inc).length = (t2 - f2).toNat / inc + 1 := by
  simp [gridDates, h]

theorem gridDates_not_lt (f2 t2 : Int) (inc : Nat)
    (h : (gridDates f2 t2 inc).isEmpty = false) : ¬ t2 < f2 := by
  intro hlt
  rw [show gridDates f2 t2 inc = [] from by simp [gridDates, hlt]] at h
  exact Bool.noConfusion h

/-- C6, confirmed: whenever `aggregate_polls` under interpolation
policy if_missing or always returns a result, that result has exactly
`floor((resolved_to - resolved_from).days / grid_step_days) + 1` rows,
one per grid date (the hypotheses require the run to return: candidate
validation and bound resolution succeeded, and the expansion fuel
sufficed). -/
theorem c6_grid_completeness (fuel : Nat) (df : Df) (cands : Selector) (a : AggType)
    (inc lt : Nat) (lo : Bool) (pol : Interp) (f t : Option Int)
    (names : List String) (f2 t2 : Int) (out : List TrendPoint)
    (hpol : pol ≠ .never)
    (hval : validateCandidates df cands = .ok names)
    (hres : resolvedBoundsIn df names f t = .ok (f2, t2))
    (hout : aggregatePolls fuel df cands a inc lt lo pol f t = some (.ok out)) :
    out.length = (t2 - f2).toNat / inc + 1 := by
  simp only [aggregatePolls, hval, hres] at hout
  by_cases hinc : inc = 0
  · simp [hinc] at hout
  · rw [if_neg hinc] at hout
    cases pol with
    | never => exact absurd rfl hpol
    | if_missing =>
      cases hd : (gridDates f2 t2 inc).isEmpty with
      | true => simp [hd] at hout
      | false =>
        simp only [hd, Bool.false_eq_true, if_false] at hout
        cases hbr : buildRows fuel (filterByDate (selectCols df names) f t) names a lt lo
            .if_missing (exactAggTable a (filterByDate (selectCols df names) f t))
            (gridDates f2 t2 inc) with
        | none => simp [hbr] at hout
        | some er =>
          cases er with
          | error e => simp [hbr] at hout
          | ok rows =>
            simp only [hbr, Option.some.injEq, Except.ok.injEq] at hout
            rw [← hout, sortByDate_length,
              buildRows_length fuel _ names a lt lo .if_missing _ _ rows hbr,
              gridDates_length f2 t2 inc (gridDates_not_lt f2 t2 inc hd)]
    | always =>
      cases hd : (gridDates f2 t2 inc).isEmpty with
      | true => simp [hd] at hout
      | false =>
        simp only [hd, Bool.false_eq_true, if_false] at hout
        cases hbr : buildRows fuel (filterByDate (selectCols df names) f t) names a lt lo
            .always (exactAggTable a (filterByDate (selectCols df names) f t))
            (gridDates f2 t2 inc) with
        | none => simp [hbr] at hout
        | some er =>
          cases er with
          | error e => simp [hbr] at hout
          | ok rows =>
            simp only [hbr, Option.some.injEq, Except.ok.injEq] at hout
            rw [← hout, sortByDate_length,
              buildRows_length fuel _ names a lt lo .always _ _ rows hbr,
              gridDates_length f2 t2 inc (gridDates_not_lt f2 t2 inc hd)]

/-- C6, witness: the theorem applied to a one-row observation set under
if_missing, a one-row output grid. -/
theorem c6_grid_completeness_witness :
    ([TrendPoint.mk 0 [("A", none)]]).length = ((0 : Int) - 0).toNat / 1 + 1 :=
  c6_grid_completeness 1 dfNan Selector.all AggType.mean 1 7 true Interp.if_missing
    none none ["A"] 0 0 [TrendPoint.mk 0 [("A", none)]] (by decide) rfl rfl rfl

/-- C7, confirmed: under interpolation policy never, `aggregate_polls`
returns exactly the per-date exact-match aggregate table of the
bound-filtered data, sorted by date; the increment, lead time, lead
override and fuel arguments do not occur in the result. -/
theorem c7_never_exact_table (fuel : Nat) (df : Df) (cands : Selector) (a : AggType)
    (inc lt : Nat) (lo : Bool) (f t : Option Int) (names : List String) (f2 t2 : Int)
    (hval : validateCandidates df cands = .ok names)
    (hres : resolvedBoundsIn df names f t = .ok (f2, t2))
    (hinc : inc ≠ 0) :
    aggregatePolls fuel df cands a inc lt lo .never f t =
      some (.ok (sortByDate (exactAggTable a (filterByDate (selectCols df names) f t)))) := by
  simp [aggregatePolls, hval, hres, hinc]

/-- C7, witness: the theorem applied at a concrete input; the result is
the sorted exact-match table of the filtered data. -/
theorem c7_never_exact_table_witness :
    aggregatePolls 0 dfTwo Selector.all AggType.mean 1 7 true Interp.never none none =
      some (Except.ok (sortByDate (exactAggTable AggType.mean
        (filterByDate (selectCols dfTwo ["A", "B"]) none none)))) :=
  c7_never_exact_table 0 dfTwo Selector.all AggType.mean 1 7 true none none
    ["A", "B"] 0 2 rfl rfl (by decide)

end PollAgg
